import Mathlib

/-!
Verification of the client-side stream-reconstruction core of the
ai-streamer demo frontend: the audio playback queue (`AudioQueue.ts`),
the WebSocket message demultiplexer and presentation-state logic
(`useWebSocket.ts`), the transcript store (`useLiveStore.ts`), the chat
input cooldown (`ChatBox.tsx`) and the connect flow (`App.tsx`).

The TypeScript is embedded shallowly: each stateful component becomes a
state structure with a step function over an explicit event trace, and
strings are handled through their underlying character lists so that all
operations reduce inside the kernel.
-/

/- ### Character-list string primitives (JS string operations) -/

/-- Character-level check that `p` is an initial segment of `s`
(JS `String.prototype.startsWith`, modelled on the character lists). -/
def listPre : List Char → List Char → Bool
  | [], _ => true
  | _ :: _, [] => false
  | a :: as, b :: bs => a == b && listPre as bs

/-- JS `msg.startsWith(p)`. -/
def strStarts (s p : String) : Bool := listPre p.data s.data

/-- JS `msg.endsWith(p)`. -/
def strEnds (s p : String) : Bool := listPre p.data.reverse s.data.reverse

/-- Drop the first `n` characters (JS `substring(n)` when `n` is in range). -/
def strDrop (s : String) (n : Nat) : String := ⟨s.data.drop n⟩

/-- Drop the last `n` characters. -/
def strDropRight (s : String) (n : Nat) : String := ⟨s.data.take (s.data.length - n)⟩

/-- Character count of a string. -/
def strLen (s : String) : Nat := s.data.length

/-- Whitespace as removed by JS `trim` (the characters relevant here). -/
def isWs (c : Char) : Bool := c == ' ' || c == '\t' || c == '\n' || c == '\r'

/-- JS `text.trim()`. -/
def trimStr (s : String) : String :=
  ⟨((s.data.dropWhile isWs).reverse.dropWhile isWs).reverse⟩

/- ### Transcript data model (`types.ts`, `useLiveStore.ts`) -/

/-- The `Role` union of `types.ts`:
`'user' | 'model' | 'other-user' | 'system'`. -/
inductive Role where
  | user
  | model
  | otherUser
  | system
deriving DecidableEq, Repr

/-- `ChatMessage` of `types.ts`; `id` and `timestamp` are drawn from a
freshness counter in the system model. -/
structure ChatMessage where
  id : Nat
  role : Role
  content : String
  timestamp : Nat
deriving DecidableEq, Repr

/-- `StreamerState` of `types.ts`. -/
inductive StreamerState where
  | Idle
  | Thinking
  | Speaking
deriving DecidableEq, Repr

/-- `useLiveStore.addMessage`: append the message to the list. -/
def addMessage (msgs : List ChatMessage) (msg : ChatMessage) : List ChatMessage :=
  msgs ++ [msg]

/-- `useLiveStore.updateBotReply`: if the list is non-empty and its last
entry has role `model`, extend that entry's content with `chunk` in
place; otherwise return the list unchanged. -/
def updateBotReply (msgs : List ChatMessage) (chunk : String) : List ChatMessage :=
  match msgs.getLast? with
  | none => msgs
  | some lastMsg =>
    if lastMsg.role = Role.model then
      msgs.dropLast ++ [{ lastMsg with content := lastMsg.content ++ chunk }]
    else msgs

/-- `useLiveStore.clearMessages`: reset to the empty transcript. -/
def clearMessages : List ChatMessage := []

/- ### Audio Sequencer (`AudioQueue.ts`) -/

/-- State of an `AudioQueue` instance.  `queue` and `isPlaying` are the
fields of the class; `sessions` is the list of audio elements currently
playing (the class holds at most one in `currentAudio`, which the
invariant below makes a theorem rather than an assumption); `started`,
`enqueued` and `errorCount` are ghost observation logs. -/
structure AQState where
  queue : List String
  isPlaying : Bool
  sessions : List String
  started : List String
  enqueued : List String
  errorCount : Nat
deriving DecidableEq, Repr

/-- Fresh `AudioQueue` instance. -/
def AQState.init : AQState := ⟨[], false, [], [], [], 0⟩

/-- `AudioQueue.playNext`, returning the new state together with the
list of `onPlaybackStateChange` invocations it makes, in order.  The
`x = ""` branch is the `if (!base64Audio) return;` guard: a falsy (empty)
payload has already been shifted off the queue and the method returns
without starting playback and without firing the callback. -/
def playNext (st : AQState) : AQState × List Bool :=
  match st.isPlaying, st.queue with
  | true, _ => (st, [])
  | false, [] => ({ st with isPlaying := false }, [false])
  | false, x :: rest =>
    if x = "" then ({ st with queue := rest }, [])
    else
      ({ st with queue := rest, isPlaying := true,
                 sessions := st.sessions ++ [x],
                 started := st.started ++ [x] }, [true])

/-- `AudioQueue.enqueue`: push the payload, then pump via `playNext`. -/
def enqueue (st : AQState) (payload : String) : AQState × List Bool :=
  playNext { st with queue := st.queue ++ [payload],
                     enqueued := st.enqueued ++ [payload] }

/-- Terminal event of the active playback session: the `onended` handler
(`isError = false`) or the `onerror` / rejected-`play()` handler
(`isError = true`).  Both set `isPlaying = false`, drop the element and
call `playNext`; the error path additionally reports one error.  With no
active session no handler exists, so nothing happens. -/
def terminal (st : AQState) (isError : Bool) : AQState × List Bool :=
  match st.sessions with
  | [] => (st, [])
  | _ :: rest =>
    playNext { st with isPlaying := false, sessions := rest,
                       errorCount := st.errorCount + (if isError then 1 else 0) }

/-- `AudioQueue.clear`: drop the queue, stop and release the current
element, and fire the callback with `false`. -/
def clearQueue (st : AQState) : AQState × List Bool :=
  ({ st with queue := [], sessions := [], isPlaying := false }, [false])

/-- Events an `AudioQueue` instance can receive. -/
inductive AQEvent where
  | enq (payload : String)
  | ended
  | errored
  | clearEv
deriving DecidableEq, Repr

/-- One event step of the `AudioQueue`. -/
def aqStep (st : AQState) : AQEvent → AQState × List Bool
  | .enq p => enqueue st p
  | .ended => terminal st false
  | .errored => terminal st true
  | .clearEv => clearQueue st

/-- An `AudioQueue` run: the state together with the accumulated
callback log. -/
structure AQRun where
  st : AQState
  cbLog : List Bool
deriving DecidableEq, Repr

/-- One trace step of `aqRun`. -/
def aqRunStep (r : AQRun) (e : AQEvent) : AQRun :=
  ⟨(aqStep r.st e).1, r.cbLog ++ (aqStep r.st e).2⟩

/-- Run an event trace on a fresh `AudioQueue`. -/
def aqRun (es : List AQEvent) : AQRun :=
  es.foldl aqRunStep ⟨AQState.init, []⟩

/-- Events that never enqueue a falsy (empty) payload and never clear. -/
def aqGoodEv : AQEvent → Bool
  | .enq p => decide (p ≠ "")
  | .clearEv => false
  | _ => true

/- ### System model (`useWebSocket.ts`, `useLiveStore.ts`, `App.tsx`) -/

/-- Combined client state: the `AudioQueue` instance, the
`isReceivingBotMessage` ref, the Zustand store (`messages`,
`streamerState`), the `sentMessagesRef` echo-suppression list, the ghost
`wire` log of texts sent on the socket, connection status and the
freshness counter used for ids and timestamps. -/
structure SysState where
  aq : AQState
  isReceiving : Bool
  messages : List ChatMessage
  streamerState : StreamerState
  sentMessages : List String
  wire : List String
  connected : Bool
  nextId : Nat
deriving DecidableEq, Repr

/-- Initial client state. -/
def SysState.init : SysState :=
  ⟨AQState.init, false, [], .Idle, [], [], false, 0⟩

/-- The `onPlaybackStateChange` callback registered in `useWebSocket`:
`Speaking` on `true`; on `false`, `Idle` unless a bot reply is still
being received, in which case `Thinking`. -/
def applyCb (st : SysState) (isPlaying : Bool) : SysState :=
  match isPlaying, st.isReceiving with
  | true, _ => { st with streamerState := .Speaking }
  | false, true => { st with streamerState := .Thinking }
  | false, false => { st with streamerState := .Idle }

/-- Apply a list of callback invocations in order. -/
def applyCbs (st : SysState) (cbs : List Bool) : SysState :=
  cbs.foldl applyCb st

/-- A fresh `ChatMessage` built with `uuidv4()` / `new Date()`, modelled
by the freshness counter. -/
def freshMsg (st : SysState) (role : Role) (content : String) : ChatMessage :=
  ⟨st.nextId, role, content, st.nextId⟩

/-- Append a fresh message to the store and advance the counter. -/
def appendFresh (st : SysState) (role : Role) (content : String) : SysState :=
  { st with messages := addMessage st.messages (freshMsg st role content),
            nextId := st.nextId + 1 }

/-- `audioQueueRef.current.enqueue(...)` with the callback effects. -/
def sysEnqueue (st : SysState) (payload : String) : SysState :=
  applyCbs { st with aq := (enqueue st.aq payload).1 } (enqueue st.aq payload).2

/-- A terminal playback event routed through the system callback. -/
def sysTerminal (st : SysState) (isError : Bool) : SysState :=
  applyCbs { st with aq := (terminal st.aq isError).1 } (terminal st.aq isError).2

/-- Payload extraction of the `[AUDIO:` branch, JS
`msg.substring(7, msg.length - 1)`.  JS `substring` swaps its arguments
when `start > end`, so the 7-character message `"[AUDIO:"` yields
`substring(6, 7) = ":"` rather than the empty string. -/
def audioPayload (msg : String) : String :=
  if strLen msg ≤ 7 then strDrop msg 6 else strDropRight (strDrop msg 7) 1

/-- `ws.onmessage` of `useWebSocket.ts`: classify the raw text and route
it, in the source's priority order — user echo, audio chunk, `[EOF]`,
assistant text token. -/
def onMessage (st : SysState) (msg : String) : SysState :=
  if (strStarts msg "[USER:" && strEnds msg "]") = true then
    if strDropRight (strDrop msg 6) 1 ∈ st.sentMessages then
      { st with
          sentMessages := st.sentMessages.erase (strDropRight (strDrop msg 6) 1) }
    else
      appendFresh st .otherUser (strDropRight (strDrop msg 6) 1)
  else if strStarts msg "[AUDIO:" = true then
    sysEnqueue st (audioPayload msg)
  else if msg = "[EOF]" then
    if st.aq.isPlaying = true then { st with isReceiving := false }
    else { st with isReceiving := false, streamerState := .Idle }
  else if st.isReceiving = true then
    { st with messages := updateBotReply st.messages msg }
  else
    if st.aq.isPlaying = true then
      appendFresh { st with isReceiving := true } .model msg
    else
      { appendFresh { st with isReceiving := true } .model msg with
          streamerState := .Thinking }

/-- `sendMessage` of `useWebSocket.ts`: when the socket is open and the
text is non-blank, append a local `user` entry, record the text for echo
suppression, and send it on the wire; otherwise do nothing. -/
def sendMessageSys (st : SysState) (text : String) : SysState :=
  if st.connected = true ∧ trimStr text ≠ "" then
    { appendFresh st .user text with
        sentMessages := st.sentMessages ++ [text],
        wire := st.wire ++ [text] }
  else st

/-- `App.handleConnect`: clear the transcript, then reconnect (the new
socket is not yet open). -/
def handleConnectReset (st : SysState) : SysState :=
  { st with messages := clearMessages, connected := false }

/-- `ws.onopen`: mark connected and append the system banner entry. -/
def onOpen (st : SysState) (roomId : String) : SysState :=
  appendFresh { st with connected := true } .system
    ("已连接房间 [" ++ roomId ++ "] 🎉")

/-- Events of the combined client model. -/
inductive SysEvent where
  | connect
  | opened (roomId : String)
  | message (raw : String)
  | audioEnded
  | audioErrored
  | send (text : String)
deriving DecidableEq, Repr

/-- One event step of the combined client. -/
def sysStep (st : SysState) : SysEvent → SysState
  | .connect => handleConnectReset st
  | .opened r => onOpen st r
  | .message raw => onMessage st raw
  | .audioEnded => sysTerminal st false
  | .audioErrored => sysTerminal st true
  | .send t => sendMessageSys st t

/-- Run an event trace from the initial client state. -/
def sysRun (es : List SysEvent) : SysState :=
  es.foldl sysStep SysState.init

/-- Modelled from the spec: the presentation state dictated by the
priority rule of the Presentation State Fuser — `Speaking` whenever the
sequencer is playing, else `Thinking` while a text stream is
mid-reception, else `Idle`. -/
def derivedState (playing receiving : Bool) : StreamerState :=
  match playing, receiving with
  | true, _ => .Speaking
  | false, true => .Thinking
  | false, false => .Idle

/-- Events whose audio frames carry a non-empty extracted payload. -/
def goodEvent : SysEvent → Bool
  | .message raw => !(strStarts raw "[AUDIO:") || decide (audioPayload raw ≠ "")
  | _ => true

/- ### Send Gateway (`ChatBox.tsx`) -/

/-- Local state of the `ChatBox` component. -/
structure ChatBoxState where
  inputText : String
  lastSendTime : Nat
  isCooldown : Bool
deriving DecidableEq, Repr

/-- `ChatBox.handleSend` at time `now` (JS `Date.now()`): inside the
2000 ms cooldown window the call only raises the transient cooldown
indicator; otherwise a non-blank input is dispatched through
`onSendMessage` (= `sendMessage`), the input is cleared and the cooldown
clock reset, and a blank input does nothing. -/
def handleSend (cb : ChatBoxState) (sys : SysState) (now : Nat) :
    ChatBoxState × SysState :=
  if now - cb.lastSendTime < 2000 then
    ({ cb with isCooldown := true }, sys)
  else if trimStr cb.inputText ≠ "" then
    ({ cb with inputText := "", lastSendTime := now },
      sendMessageSys sys cb.inputText)
  else (cb, sys)

/-- Typing `text` into the box and pressing send at time `now`. -/
def submitAt (cb : ChatBoxState) (sys : SysState) (text : String) (now : Nat) :
    ChatBoxState × SysState :=
  handleSend { cb with inputText := text } sys now

/- ### Audio Sequencer invariants -/

/-- Structural invariant of the `AudioQueue`: the fragments that began
playback followed by those still queued form an order-preserving
sublist of the enqueued fragments, and exactly one audio element is
live precisely while `isPlaying` holds. -/
def AQInv (st : AQState) : Prop :=
  (st.started ++ st.queue).Sublist st.enqueued ∧
  st.sessions.length = cond st.isPlaying 1 0

theorem playNext_inv (st : AQState) (h : AQInv st) : AQInv (playNext st).1 := by
  obtain ⟨q, ip, ss, sd, en, ec⟩ := st
  obtain ⟨h1, h2⟩ := h
  cases ip with
  | true => exact ⟨h1, h2⟩
  | false =>
    cases q with
    | nil => exact ⟨h1, h2⟩
    | cons x rest =>
      show AQInv (if x = "" then
          ((⟨rest, false, ss, sd, en, ec⟩ : AQState), ([] : List Bool))
        else
          ((⟨rest, true, ss ++ [x], sd ++ [x], en, ec⟩ : AQState), [true])).1
      by_cases hx : x = ""
      · rw [if_pos hx]
        exact ⟨(((List.sublist_cons_self x rest).append_left sd)).trans h1, h2⟩
      · rw [if_neg hx]
        refine ⟨?_, ?_⟩
        · have he : (sd ++ [x]) ++ rest = sd ++ (x :: rest) := by simp
          exact he ▸ h1
        · simpa using h2

theorem enqueue_inv (st : AQState) (p : String) (h : AQInv st) :
    AQInv (enqueue st p).1 := by
  obtain ⟨h1, h2⟩ := h
  apply playNext_inv
  refine ⟨?_, h2⟩
  have he : st.started ++ (st.queue ++ [p]) = (st.started ++ st.queue) ++ [p] := by
    simp
  exact he ▸ (h1.append (List.Sublist.refl [p]))

theorem terminal_inv (st : AQState) (b : Bool) (h : AQInv st) :
    AQInv (terminal st b).1 := by
  obtain ⟨q, ip, ss, sd, en, ec⟩ := st
  obtain ⟨h1, h2⟩ := h
  cases ss with
  | nil => exact ⟨h1, h2⟩
  | cons a rest =>
    apply playNext_inv
    refine ⟨h1, ?_⟩
    have hrest : rest.length = 0 := by
      cases ip
      · simp at h2
      · simpa using h2
    simpa using hrest

theorem clearQueue_inv (st : AQState) (h : AQInv st) : AQInv (clearQueue st).1 := by
  obtain ⟨h1, _⟩ := h
  refine ⟨?_, by simp [clearQueue]⟩
  show (st.started ++ []).Sublist st.enqueued
  rw [List.append_nil]
  exact (List.sublist_append_left st.started st.queue).trans h1

theorem aqStep_inv (st : AQState) (e : AQEvent) (h : AQInv st) :
    AQInv (aqStep st e).1 := by
  cases e with
  | enq p => exact enqueue_inv st p h
  | ended => exact terminal_inv st false h
  | errored => exact terminal_inv st true h
  | clearEv => exact clearQueue_inv st h

theorem aqFold_inv (es : List AQEvent) (r : AQRun) (h : AQInv r.st) :
    AQInv (es.foldl aqRunStep r).st := by
  induction es generalizing r with
  | nil => exact h
  | cons e es ih => exact ih _ (aqStep_inv _ _ h)

theorem aqRun_inv (es : List AQEvent) : AQInv (aqRun es).st :=
  aqFold_inv es _ ⟨by simp [AQState.init], by simp [AQState.init]⟩

/-- Strict-FIFO invariant for traces with no `clear()` and no falsy
payload: everything ever enqueued has either already begun, in order, or
is still queued behind the begun fragments. -/
def AQStrict (st : AQState) : Prop :=
  st.started ++ st.queue = st.enqueued ∧ "" ∉ st.queue

theorem playNext_strict (st : AQState) (h : AQStrict st) :
    AQStrict (playNext st).1 := by
  obtain ⟨q, ip, ss, sd, en, ec⟩ := st
  obtain ⟨h1, h2⟩ := h
  cases ip with
  | true => exact ⟨h1, h2⟩
  | false =>
    cases q with
    | nil => exact ⟨h1, h2⟩
    | cons x rest =>
      have hx : ¬ x = "" := by
        intro hx
        exact h2 (by rw [hx] at *; exact List.mem_cons_self _ _)
      show AQStrict (if x = "" then
          ((⟨rest, false, ss, sd, en, ec⟩ : AQState), ([] : List Bool))
        else
          ((⟨rest, true, ss ++ [x], sd ++ [x], en, ec⟩ : AQState), [true])).1
      rw [if_neg hx]
      refine ⟨?_, ?_⟩
      · have he : (sd ++ [x]) ++ rest = sd ++ (x :: rest) := by simp
        rw [he, h1]
      · intro hm
        exact h2 (List.mem_cons_of_mem _ hm)

theorem enqueue_strict (st : AQState) (p : String) (hp : p ≠ "") (h : AQStrict st) :
    AQStrict (enqueue st p).1 := by
  obtain ⟨h1, h2⟩ := h
  apply playNext_strict
  refine ⟨?_, ?_⟩
  · show st.started ++ (st.queue ++ [p]) = st.enqueued ++ [p]
    rw [← List.append_assoc, h1]
  · intro hm
    rcases List.mem_append.mp hm with hm | hm
    · exact h2 hm
    · exact hp (List.mem_singleton.mp hm).symm

theorem terminal_strict (st : AQState) (b : Bool) (h : AQStrict st) :
    AQStrict (terminal st b).1 := by
  obtain ⟨q, ip, ss, sd, en, ec⟩ := st
  cases ss with
  | nil => exact h
  | cons a rest => exact playNext_strict _ h

theorem aqStep_strict (st : AQState) (e : AQEvent) (he : aqGoodEv e = true)
    (h : AQStrict st) : AQStrict (aqStep st e).1 := by
  cases e with
  | enq p =>
    have hp : p ≠ "" := by simpa [aqGoodEv] using he
    exact enqueue_strict st p hp h
  | ended => exact terminal_strict st false h
  | errored => exact terminal_strict st true h
  | clearEv => simp [aqGoodEv] at he

theorem aqFold_strict (es : List AQEvent) (r : AQRun)
    (he : ∀ e ∈ es, aqGoodEv e = true) (h : AQStrict r.st) :
    AQStrict (es.foldl aqRunStep r).st := by
  induction es generalizing r with
  | nil => exact h
  | cons e es ih =>
    exact ih _ (fun x hx => he x (List.mem_cons_of_mem _ hx))
      (aqStep_strict _ _ (he e (List.mem_cons_self _ _)) h)

/-- C1: for every sequence of events on the Audio Sequencer, the
fragments that began playback did so in strict FIFO arrival order —
they form an order-preserving sublist of the enqueued fragments, and on
clear-free traces of non-falsy payloads they are exactly an initial
segment of them (begun ++ still-queued = enqueued) — and at every
instant at most one playback session is live. -/
theorem C1_fifo_no_overlap (es : List AQEvent) :
    (aqRun es).st.started.Sublist (aqRun es).st.enqueued ∧
    (aqRun es).st.sessions.length ≤ 1 ∧
    ((∀ e ∈ es, aqGoodEv e = true) →
      (aqRun es).st.started ++ (aqRun es).st.queue = (aqRun es).st.enqueued) := by
  obtain ⟨h1, h2⟩ := aqRun_inv es
  refine ⟨(List.sublist_append_left _ _).trans h1, ?_, ?_⟩
  · rw [h2]
    cases (aqRun es).st.isPlaying <;> simp
  · intro he
    exact (aqFold_strict es _ he ⟨by simp [AQState.init], by simp [AQState.init]⟩).1

theorem C1_fifo_no_overlap_witness :
    (∀ e ∈ [AQEvent.enq "a", AQEvent.enq "b", AQEvent.ended], aqGoodEv e = true) ∧
    (aqRun [AQEvent.enq "a", AQEvent.enq "b", AQEvent.ended]).st.started ++
        (aqRun [AQEvent.enq "a", AQEvent.enq "b", AQEvent.ended]).st.queue
      = (aqRun [AQEvent.enq "a", AQEvent.enq "b", AQEvent.ended]).st.enqueued :=
  ⟨by decide, (C1_fifo_no_overlap _).2.2 (by decide)⟩

/- ### Playback-state callback accounting -/

theorem playNext_true_count (st : AQState) :
    (playNext st).2.count true + st.started.length = (playNext st).1.started.length := by
  obtain ⟨q, ip, ss, sd, en, ec⟩ := st
  cases ip with
  | true => simp [playNext]
  | false =>
    cases q with
    | nil => simp [playNext]
    | cons x rest =>
      show ((if x = "" then
          ((⟨rest, false, ss, sd, en, ec⟩ : AQState), ([] : List Bool))
        else
          ((⟨rest, true, ss ++ [x], sd ++ [x], en, ec⟩ : AQState), [true]))).2.count true
          + sd.length
        = ((if x = "" then
          ((⟨rest, false, ss, sd, en, ec⟩ : AQState), ([] : List Bool))
        else
          ((⟨rest, true, ss ++ [x], sd ++ [x], en, ec⟩ : AQState), [true]))).1.started.length
      by_cases hx : x = ""
      · rw [if_pos hx]; simp
      · rw [if_neg hx]; simp [Nat.add_comm]

theorem aqStep_true_count (st : AQState) (e : AQEvent) :
    (aqStep st e).2.count true + st.started.length = (aqStep st e).1.started.length := by
  obtain ⟨q, ip, ss, sd, en, ec⟩ := st
  cases e with
  | enq p => exact playNext_true_count _
  | ended =>
    cases ss with
    | nil => simp [aqStep, terminal]
    | cons a rest => exact playNext_true_count _
  | errored =>
    cases ss with
    | nil => simp [aqStep, terminal]
    | cons a rest => exact playNext_true_count _
  | clearEv => simp [aqStep, clearQueue]

theorem aqFold_true_count (es : List AQEvent) (r : AQRun)
    (h : r.cbLog.count true = r.st.started.length) :
    (es.foldl aqRunStep r).cbLog.count true = (es.foldl aqRunStep r).st.started.length := by
  induction es generalizing r with
  | nil => exact h
  | cons e es ih =>
    apply ih
    show (r.cbLog ++ (aqStep r.st e).2).count true = (aqStep r.st e).1.started.length
    rw [List.count_append, h, Nat.add_comm]
    exact aqStep_true_count r.st e

/-- C2 counterexample: two fragments enqueued back-to-back with no
intervening idle period make the callback fire the `playing` value
twice in a row — the log of callback invocations for the trace
`enqueue a; enqueue b; a ends` is `[true, true]`, which re-fires
`playing` between the consecutive fragments and is not alternating as
once-per-transition firing would require. -/
theorem C2_counterexample :
    (aqRun [AQEvent.enq "a", AQEvent.enq "b", AQEvent.ended]).cbLog = [true, true] ∧
    ¬ List.Chain' (fun a b => a ≠ b)
        (aqRun [AQEvent.enq "a", AQEvent.enq "b", AQEvent.ended]).cbLog := by
  have h : (aqRun [AQEvent.enq "a", AQEvent.enq "b", AQEvent.ended]).cbLog
      = [true, true] := by decide
  refine ⟨h, ?_⟩
  rw [h]
  intro hc
  exact (List.chain'_cons.mp hc).1 rfl

/-- C2 as amended: the registered callback fires with value `true` once
for every fragment that begins playback — so consecutive back-to-back
fragments each re-fire the `playing` callback — rather than once per
`Idle`-to-`Playing` transition: over any event trace the number of
`true` invocations equals the number of fragments that began playback. -/
theorem C2_amended_once_per_fragment (es : List AQEvent) :
    (aqRun es).cbLog.count true = (aqRun es).st.started.length :=
  aqFold_true_count es _ (by simp [AQState.init])

/-- C7: a fragment whose playback fails is non-fatal — after
`enqueue malformed; enqueue valid; error-terminal` the sequencer is
playing the valid fragment with exactly one error reported, and after
the valid fragment's natural end it is idle with an empty queue, the
error count still one, both fragments having begun playback in order. -/
theorem C7_error_nonfatal :
    (aqRun [AQEvent.enq "malformed", AQEvent.enq "valid", AQEvent.errored]).st.sessions
        = ["valid"] ∧
    (aqRun [AQEvent.enq "malformed", AQEvent.enq "valid", AQEvent.errored]).st.isPlaying
        = true ∧
    (aqRun [AQEvent.enq "malformed", AQEvent.enq "valid", AQEvent.errored]).st.errorCount
        = 1 ∧
    (aqRun [AQEvent.enq "malformed", AQEvent.enq "valid", AQEvent.errored,
        AQEvent.ended]).st.isPlaying = false ∧
    (aqRun [AQEvent.enq "malformed", AQEvent.enq "valid", AQEvent.errored,
        AQEvent.ended]).st.sessions = [] ∧
    (aqRun [AQEvent.enq "malformed", AQEvent.enq "valid", AQEvent.errored,
        AQEvent.ended]).st.queue = [] ∧
    (aqRun [AQEvent.enq "malformed", AQEvent.enq "valid", AQEvent.errored,
        AQEvent.ended]).st.errorCount = 1 ∧
    (aqRun [AQEvent.enq "malformed", AQEvent.enq "valid", AQEvent.errored,
        AQEvent.ended]).st.started = ["malformed", "valid"] := by
  decide

/- ### Presentation-state invariant -/

/-- Inductive invariant of the combined client: the stored streamer
state always equals the state derived from sequencer activity and
stream reception, the queue never holds a falsy payload, the queue is
fully pumped whenever nothing is playing, and exactly one audio element
is live precisely while playing. -/
def SysInv (s : SysState) : Prop :=
  s.streamerState = derivedState s.aq.isPlaying s.isReceiving ∧
  "" ∉ s.aq.queue ∧
  (s.aq.isPlaying = false → s.aq.queue = []) ∧
  s.aq.sessions.length = cond s.aq.isPlaying 1 0

theorem applyCbs_one_true (t : SysState) :
    applyCbs t [true] = { t with streamerState := .Speaking } := rfl

theorem sysEnqueue_inv (s : SysState) (p : String) (hp : p ≠ "") (h : SysInv s) :
    SysInv (sysEnqueue s p) := by
  obtain ⟨⟨q, ip, ss, sd, en, ec⟩, recv, msgs, str, sent, wr, conn, nid⟩ := s
  obtain ⟨h1, h2, h3, h4⟩ := h
  cases ip with
  | true =>
    refine ⟨h1, ?_, ?_, h4⟩
    · intro hm
      rcases List.mem_append.mp hm with hm | hm
      · exact h2 hm
      · exact hp (List.mem_singleton.mp hm).symm
    · intro hf
      exact Bool.noConfusion (show true = false from hf)
  | false =>
    have hq : q = [] := h3 rfl
    subst hq
    show SysInv (applyCbs
      { aq := (if p = "" then
            ((⟨[], false, ss, sd, en ++ [p], ec⟩ : AQState), ([] : List Bool))
          else
            ((⟨[], true, ss ++ [p], sd ++ [p], en ++ [p], ec⟩ : AQState), [true])).1,
        isReceiving := recv, messages := msgs, streamerState := str,
        sentMessages := sent, wire := wr, connected := conn, nextId := nid }
      (if p = "" then
          ((⟨[], false, ss, sd, en ++ [p], ec⟩ : AQState), ([] : List Bool))
        else
          ((⟨[], true, ss ++ [p], sd ++ [p], en ++ [p], ec⟩ : AQState), [true])).2)
    rw [if_neg hp, applyCbs_one_true]
    refine ⟨rfl, List.not_mem_nil "", ?_, ?_⟩
    · intro hf
      exact Bool.noConfusion (show true = false from hf)
    · simpa using h4

theorem sysTerminal_inv (s : SysState) (b : Bool) (h : SysInv s) :
    SysInv (sysTerminal s b) := by
  obtain ⟨⟨q, ip, ss, sd, en, ec⟩, recv, msgs, str, sent, wr, conn, nid⟩ := s
  obtain ⟨h1, h2, h3, h4⟩ := h
  cases ss with
  | nil => exact ⟨h1, h2, h3, h4⟩
  | cons a rest =>
    cases ip with
    | false => simp at h4
    | true =>
      have hrest : rest = [] := by
        have : rest.length = 0 := by simpa using h4
        exact List.length_eq_zero.mp this
      subst hrest
      cases q with
      | nil =>
        cases recv with
        | true => exact ⟨rfl, h2, fun _ => rfl, rfl⟩
        | false => exact ⟨rfl, h2, fun _ => rfl, rfl⟩
      | cons x xs =>
        have hx : ¬ x = "" := fun hx => h2 (hx ▸ List.mem_cons_self x xs)
        show SysInv (applyCbs
          { aq := (if x = "" then
                ((⟨xs, false, [], sd, en, ec + (if b then 1 else 0)⟩ : AQState),
                  ([] : List Bool))
              else
                ((⟨xs, true, [x], sd ++ [x], en, ec + (if b then 1 else 0)⟩ : AQState),
                  [true])).1,
            isReceiving := recv, messages := msgs, streamerState := str,
            sentMessages := sent, wire := wr, connected := conn, nextId := nid }
          (if x = "" then
              ((⟨xs, false, [], sd, en, ec + (if b then 1 else 0)⟩ : AQState),
                ([] : List Bool))
            else
              ((⟨xs, true, [x], sd ++ [x], en, ec + (if b then 1 else 0)⟩ : AQState),
                [true])).2)
        rw [if_neg hx, applyCbs_one_true]
        refine ⟨rfl, ?_, ?_, rfl⟩
        · exact fun hm => h2 (List.mem_cons_of_mem _ hm)
        · intro hf
          exact Bool.noConfusion (show true = false from hf)

theorem onMessage_inv (s : SysState) (raw : String)
    (hgood : strStarts raw "[AUDIO:" = true → audioPayload raw ≠ "")
    (h : SysInv s) : SysInv (onMessage s raw) := by
  obtain ⟨hd, h2, h3, h4⟩ := h
  unfold onMessage
  split_ifs with hu hm ha he hb hr hb2
  · exact ⟨hd, h2, h3, h4⟩
  · exact ⟨hd, h2, h3, h4⟩
  · exact sysEnqueue_inv s _ (hgood ha) ⟨hd, h2, h3, h4⟩
  · refine ⟨?_, h2, h3, h4⟩
    show s.streamerState = derivedState s.aq.isPlaying false
    rw [hb] at hd ⊢
    exact hd
  · refine ⟨?_, h2, h3, h4⟩
    have hb' : s.aq.isPlaying = false := by
      cases hx : s.aq.isPlaying
      · rfl
      · exact absurd hx hb
    show StreamerState.Idle = derivedState s.aq.isPlaying false
    rw [hb']
    rfl
  · exact ⟨hd, h2, h3, h4⟩
  · refine ⟨?_, h2, h3, h4⟩
    show s.streamerState = derivedState s.aq.isPlaying true
    rw [hb2] at hd ⊢
    exact hd
  · refine ⟨?_, h2, h3, h4⟩
    have hb' : s.aq.isPlaying = false := by
      cases hx : s.aq.isPlaying
      · rfl
      · exact absurd hx hb2
    show StreamerState.Thinking = derivedState s.aq.isPlaying true
    rw [hb']
    rfl

theorem sysStep_inv (s : SysState) (e : SysEvent) (he : goodEvent e = true)
    (h : SysInv s) : SysInv (sysStep s e) := by
  cases e with
  | connect => exact h
  | opened r => exact h
  | message raw =>
    refine onMessage_inv s raw ?_ h
    intro ha
    simpa [goodEvent, ha] using he
  | audioEnded => exact sysTerminal_inv s false h
  | audioErrored => exact sysTerminal_inv s true h
  | send t =>
    show SysInv (sendMessageSys s t)
    unfold sendMessageSys
    split_ifs with hc
    · exact h
    · exact h

theorem sysFold_inv (es : List SysEvent) (s : SysState)
    (he : ∀ e ∈ es, goodEvent e = true) (h : SysInv s) :
    SysInv (es.foldl sysStep s) := by
  induction es generalizing s with
  | nil => exact h
  | cons e es ih =>
    exact ih _ (fun x hx => he x (List.mem_cons_of_mem _ hx))
      (sysStep_inv _ _ (he e (List.mem_cons_self _ _)) h)

theorem sysRun_inv (es : List SysEvent) (he : ∀ e ∈ es, goodEvent e = true) :
    SysInv (sysRun es) :=
  sysFold_inv es _ he ⟨rfl, List.not_mem_nil _, fun _ => rfl, rfl⟩

/-- C3 counterexample: an audio frame with an empty payload (raw frame
`[AUDIO:]`) is dequeued by the falsy-payload guard without firing the
playback-state callback, so after the preceding fragment's terminal
event the sequencer is idle and reception is finished, yet the
presentation state remains `Speaking` instead of the derived `Idle`. -/
theorem C3_counterexample :
    (sysRun [SysEvent.message "[AUDIO:ok]", SysEvent.message "[AUDIO:]",
        SysEvent.audioEnded]).streamerState = StreamerState.Speaking ∧
    (sysRun [SysEvent.message "[AUDIO:ok]", SysEvent.message "[AUDIO:]",
        SysEvent.audioEnded]).aq.isPlaying = false ∧
    (sysRun [SysEvent.message "[AUDIO:ok]", SysEvent.message "[AUDIO:]",
        SysEvent.audioEnded]).isReceiving = false ∧
    derivedState false false = StreamerState.Idle := by
  decide

/-- C3 as amended: over every event trace in which each audio frame
carries a non-empty extracted payload, at every event-processing
boundary the presentation state equals the value derived by the
priority rule — `Speaking` when the sequencer is playing, `Thinking`
when idle with a text stream mid-reception (reception being tracked by
the flag set by a `TextToken` and cleared by `StreamEnd`, which
connection open does not reset), and `Idle` otherwise.  In particular a
`StreamEnd` during playback leaves the state `Speaking` and the state
becomes `Idle` when the sequencer then goes idle. -/
theorem C3_derived_state (es : List SysEvent)
    (he : ∀ e ∈ es, goodEvent e = true) :
    (sysRun es).streamerState
      = derivedState (sysRun es).aq.isPlaying (sysRun es).isReceiving :=
  (sysRun_inv es he).1

theorem C3_derived_state_witness :
    (∀ e ∈ [SysEvent.message "hello", SysEvent.message "[EOF]"],
        goodEvent e = true) ∧
    (sysRun [SysEvent.message "hello", SysEvent.message "[EOF]"]).streamerState
      = derivedState
          (sysRun [SysEvent.message "hello", SysEvent.message "[EOF]"]).aq.isPlaying
          (sysRun [SysEvent.message "hello", SysEvent.message "[EOF]"]).isReceiving :=
  ⟨by decide, C3_derived_state _ (by decide)⟩

/- ### Demultiplexer branch characterisations -/

theorem onMessage_user_hello (s : SysState) :
    onMessage s "[USER:hello]"
      = if "hello" ∈ s.sentMessages then
          { s with sentMessages := s.sentMessages.erase "hello" }
        else appendFresh s .otherUser "hello" := rfl

theorem onMessage_eof (s : SysState) :
    onMessage s "[EOF]"
      = if s.aq.isPlaying = true then { s with isReceiving := false }
        else { s with isReceiving := false, streamerState := .Idle } := rfl

theorem onMessage_token_hi (s : SysState) :
    onMessage s "Hi"
      = if s.isReceiving = true then
          { s with messages := updateBotReply s.messages "Hi" }
        else if s.aq.isPlaying = true then
          appendFresh { s with isReceiving := true } .model "Hi"
        else
          { appendFresh { s with isReceiving := true } .model "Hi" with
              streamerState := .Thinking } := rfl

theorem onMessage_token_there (s : SysState) :
    onMessage s " there"
      = if s.isReceiving = true then
          { s with messages := updateBotReply s.messages " there" }
        else if s.aq.isPlaying = true then
          appendFresh { s with isReceiving := true } .model " there"
        else
          { appendFresh { s with isReceiving := true } .model " there" with
              streamerState := .Thinking } := rfl

theorem sendMessageSys_accepted (s : SysState) (t : String)
    (hc : s.connected = true) (ht : trimStr t ≠ "") :
    sendMessageSys s t
      = { appendFresh s .user t with
            sentMessages := s.sentMessages ++ [t],
            wire := s.wire ++ [t] } := by
  unfold sendMessageSys
  rw [if_pos ⟨hc, ht⟩]

theorem updateBotReply_concat (msgs : List ChatMessage) (e : ChatMessage)
    (hrole : e.role = Role.model) (c : String) :
    updateBotReply (msgs ++ [e]) c
      = msgs ++ [{ e with content := e.content ++ c }] := by
  unfold updateBotReply
  rw [List.getLast?_concat]
  show (if e.role = Role.model then
      (msgs ++ [e]).dropLast ++ [{ e with content := e.content ++ c }]
    else msgs ++ [e]) = _
  rw [if_pos hrole, List.dropLast_concat]

/- ### Claims on the demultiplexer and transcript -/

/-- C4: evaluation at the failing input — a `TextToken` arriving while a
bot reply is mid-reception but the transcript tail is no longer the
assistant entry (a remote user message arrived in between) is silently
dropped: the third event leaves the transcript exactly as it was, so
the chunk `b` appears nowhere, contradicting the requirement that no
`TextToken` is ever silently dropped. -/
theorem C4_dropped_token_eval :
    (sysRun [SysEvent.message "a", SysEvent.message "[USER:x]",
        SysEvent.message "b"]).messages
      = (sysRun [SysEvent.message "a", SysEvent.message "[USER:x]"]).messages ∧
    (sysRun [SysEvent.message "a", SysEvent.message "[USER:x]"]).messages.map
        (fun m => m.content) = ["a", "x"] ∧
    (sysRun [SysEvent.message "a", SysEvent.message "[USER:x]"]).messages.map
        (fun m => m.role) = [Role.model, Role.otherUser] := by
  decide

/-- C5: echo suppression — in any state, a pending `submit("hello")`
followed by the inbound frame `[USER:hello]` yields zero new transcript
entries and removes the pending record; an inbound `[USER:hello]` with
no matching pending record appends exactly one fresh `other-user` entry
with content `hello`; and when a match exists only the first pending
record with exact value equality is removed, with no transcript
change. -/
theorem C5_echo_suppression (s : SysState) :
    (s.connected = true →
      (sysStep (sysStep s (.send "hello")) (.message "[USER:hello]")).messages
        = (sysStep s (.send "hello")).messages ∧
      (sysStep (sysStep s (.send "hello")) (.message "[USER:hello]")).sentMessages
        = (s.sentMessages ++ ["hello"]).erase "hello") ∧
    ("hello" ∉ s.sentMessages →
      (sysStep s (.message "[USER:hello]")).messages
        = s.messages ++ [freshMsg s .otherUser "hello"] ∧
      (sysStep s (.message "[USER:hello]")).sentMessages = s.sentMessages) ∧
    ("hello" ∈ s.sentMessages →
      (sysStep s (.message "[USER:hello]")).messages = s.messages ∧
      (sysStep s (.message "[USER:hello]")).sentMessages
        = s.sentMessages.erase "hello") := by
  refine ⟨?_, ?_, ?_⟩
  · intro hc
    have hs1 : sysStep s (.send "hello")
        = { appendFresh s .user "hello" with
              sentMessages := s.sentMessages ++ ["hello"],
              wire := s.wire ++ ["hello"] } :=
      sendMessageSys_accepted s "hello" hc (by decide)
    rw [hs1]
    have hmem : "hello" ∈ s.sentMessages ++ ["hello"] :=
      List.mem_append.mpr (Or.inr (List.mem_singleton.mpr rfl))
    rw [show sysStep ({ appendFresh s .user "hello" with
          sentMessages := s.sentMessages ++ ["hello"],
          wire := s.wire ++ ["hello"] } : SysState) (.message "[USER:hello]")
        = _ from onMessage_user_hello _]
    rw [if_pos hmem]
    exact ⟨rfl, rfl⟩
  · intro hnm
    rw [show sysStep s (.message "[USER:hello]") = _ from onMessage_user_hello s,
        if_neg hnm]
    exact ⟨rfl, rfl⟩
  · intro hm
    rw [show sysStep s (.message "[USER:hello]") = _ from onMessage_user_hello s,
        if_pos hm]
    exact ⟨rfl, rfl⟩

theorem C5_echo_suppression_witness :
    ((sysStep (sysStep { SysState.init with connected := true } (.send "hello"))
        (.message "[USER:hello]")).messages
      = (sysStep { SysState.init with connected := true } (.send "hello")).messages) ∧
    ((sysStep { SysState.init with sentMessages := ["hello"] }
        (.message "[USER:hello]")).sentMessages = []) ∧
    ((sysStep SysState.init (.message "[USER:hello]")).messages
      = [freshMsg SysState.init .otherUser "hello"]) :=
  ⟨((C5_echo_suppression { SysState.init with connected := true }).1 rfl).1,
   by
    have h := ((C5_echo_suppression
        { SysState.init with sentMessages := ["hello"] }).2.2
        (List.mem_singleton.mpr rfl)).2
    simpa using h,
   by
    have h := ((C5_echo_suppression SysState.init).2.1 (by decide)).1
    simpa using h⟩

theorem sysStep_message (s : SysState) (raw : String) :
    sysStep s (.message raw) = onMessage s raw := rfl

/-- C6: processing `TextToken "Hi"`, `TextToken " there"`, `StreamEnd`
from any state with no open assistant turn appends exactly one new
transcript entry — an assistant (`model`) entry with content
`"Hi there"` — and finishes with reception closed. -/
theorem C6_token_stream_assembly (s : SysState) (h : s.isReceiving = false) :
    (sysStep (sysStep (sysStep s (.message "Hi")) (.message " there"))
        (.message "[EOF]")).messages
      = s.messages ++ [⟨s.nextId, Role.model, "Hi there", s.nextId⟩] ∧
    (sysStep (sysStep (sysStep s (.message "Hi")) (.message " there"))
        (.message "[EOF]")).isReceiving = false := by
  have hnr : ¬ s.isReceiving = true := by
    rw [h]
    exact Bool.false_ne_true
  simp only [sysStep_message]
  by_cases hp : s.aq.isPlaying = true
  · rw [onMessage_token_hi, if_neg hnr, if_pos hp,
      onMessage_token_there,
      if_pos (show (appendFresh { s with isReceiving := true }
        Role.model "Hi").isReceiving = true from rfl),
      show (appendFresh { s with isReceiving := true } Role.model "Hi").messages
        = s.messages ++ [⟨s.nextId, Role.model, "Hi", s.nextId⟩] from rfl,
      updateBotReply_concat s.messages ⟨s.nextId, Role.model, "Hi", s.nextId⟩
        rfl " there",
      onMessage_eof]
    split_ifs with hq
    · exact ⟨rfl, rfl⟩
    · exact absurd hp hq
  · rw [onMessage_token_hi, if_neg hnr, if_neg hp,
      onMessage_token_there,
      if_pos (show ({ appendFresh { s with isReceiving := true }
          Role.model "Hi" with streamerState := .Thinking }
          : SysState).isReceiving = true from rfl),
      show ({ appendFresh { s with isReceiving := true } Role.model "Hi" with
          streamerState := .Thinking } : SysState).messages
        = s.messages ++ [⟨s.nextId, Role.model, "Hi", s.nextId⟩] from rfl,
      updateBotReply_concat s.messages ⟨s.nextId, Role.model, "Hi", s.nextId⟩
        rfl " there",
      onMessage_eof]
    split_ifs with hq
    · exact absurd hq hp
    · exact ⟨rfl, rfl⟩

theorem C6_token_stream_assembly_witness :
    SysState.init.isReceiving = false ∧
    (sysStep (sysStep (sysStep SysState.init (.message "Hi"))
        (.message " there")) (.message "[EOF]")).messages
      = [⟨0, Role.model, "Hi there", 0⟩] :=
  ⟨rfl, by
    have h := (C6_token_stream_assembly SysState.init rfl).1
    simpa using h⟩

/-- C9 counterexample: connection open does not reset the presentation
state — a `TextToken` before reconnection leaves the state `Thinking`,
and after `handleConnect` plus the open event it is still `Thinking`,
not the `Idle` the claim requires. -/
theorem C9_counterexample :
    (sysRun [SysEvent.message "hi", SysEvent.connect,
        SysEvent.opened "star"]).streamerState = StreamerState.Thinking ∧
    StreamerState.Thinking ≠ StreamerState.Idle := by
  decide

/-- C9 as amended: connecting clears the transcript — after the connect
reset and the open event the transcript holds exactly the fresh system
banner entry, with no entry carried over from before — but the
presentation state is not reset by the open processing and retains
whatever value it had before the connect. -/
theorem C9_connect_resets_transcript_only (es : List SysEvent) (r : String) :
    (sysRun (es ++ [SysEvent.connect, SysEvent.opened r])).messages
      = [⟨(sysRun es).nextId, Role.system, "已连接房间 [" ++ r ++ "] 🎉",
          (sysRun es).nextId⟩] ∧
    (sysRun (es ++ [SysEvent.connect, SysEvent.opened r])).streamerState
      = (sysRun es).streamerState := by
  have hfold : sysRun (es ++ [SysEvent.connect, SysEvent.opened r])
      = sysStep (sysStep (sysRun es) SysEvent.connect) (SysEvent.opened r) := by
    unfold sysRun
    rw [List.foldl_append]
    rfl
  rw [hfold]
  exact ⟨rfl, rfl⟩

/- ### Send Gateway claims -/

theorem sendMessageSys_connected (s : SysState) (t : String) :
    (sendMessageSys s t).connected = s.connected := by
  unfold sendMessageSys
  split_ifs <;> rfl

/-- C8: cooldown behaviour of the send gateway — a first accepted
submission appends one local entry and one wire send; a second
submission less than 2000 ms after it is rejected with no state change
and the transient cooldown indicator raised; a third submission after
the window has elapsed is accepted again; and any submission whose text
trims to empty changes nothing. -/
theorem C8_cooldown (cb : ChatBoxState) (sys : SysState)
    (x y z w : String) (t1 t2 t3 t : Nat)
    (hconn : sys.connected = true)
    (h1 : 2000 ≤ t1 - cb.lastSendTime) (hx : trimStr x ≠ "")
    (h2 : t2 - t1 < 2000) (h3 : 2000 ≤ t3 - t1) (hz : trimStr z ≠ "") :
    (submitAt cb sys x t1).2.messages
      = sys.messages ++ [freshMsg sys .user x] ∧
    (submitAt cb sys x t1).2.wire = sys.wire ++ [x] ∧
    (submitAt (submitAt cb sys x t1).1 (submitAt cb sys x t1).2 y t2).2
      = (submitAt cb sys x t1).2 ∧
    (submitAt (submitAt cb sys x t1).1 (submitAt cb sys x t1).2 y t2).1.isCooldown
      = true ∧
    (submitAt (submitAt (submitAt cb sys x t1).1 (submitAt cb sys x t1).2 y t2).1
        (submitAt (submitAt cb sys x t1).1
          (submitAt cb sys x t1).2 y t2).2 z t3).2.messages
      = (submitAt (submitAt cb sys x t1).1
          (submitAt cb sys x t1).2 y t2).2.messages
        ++ [freshMsg (submitAt (submitAt cb sys x t1).1
              (submitAt cb sys x t1).2 y t2).2 .user z] ∧
    (submitAt (submitAt (submitAt cb sys x t1).1 (submitAt cb sys x t1).2 y t2).1
        (submitAt (submitAt cb sys x t1).1
          (submitAt cb sys x t1).2 y t2).2 z t3).2.wire
      = (submitAt (submitAt cb sys x t1).1
          (submitAt cb sys x t1).2 y t2).2.wire ++ [z] ∧
    (trimStr w = "" → (submitAt cb sys w t).2 = sys) := by
  obtain ⟨it, lst, ic⟩ := cb
  have h1' : 2000 ≤ t1 - lst := h1
  have e1 : submitAt ⟨it, lst, ic⟩ sys x t1
      = ((⟨"", t1, ic⟩ : ChatBoxState), sendMessageSys sys x) := by
    show (if t1 - lst < 2000 then ((⟨x, lst, true⟩ : ChatBoxState), sys)
      else if trimStr x ≠ "" then
        ((⟨"", t1, ic⟩ : ChatBoxState), sendMessageSys sys x)
      else ((⟨x, lst, ic⟩ : ChatBoxState), sys)) = _
    rw [if_neg (by omega), if_pos hx]
  have e2 : submitAt ⟨"", t1, ic⟩ (sendMessageSys sys x) y t2
      = ((⟨y, t1, true⟩ : ChatBoxState), sendMessageSys sys x) := by
    show (if t2 - t1 < 2000 then
        ((⟨y, t1, true⟩ : ChatBoxState), sendMessageSys sys x)
      else if trimStr y ≠ "" then
        ((⟨"", t2, ic⟩ : ChatBoxState), sendMessageSys (sendMessageSys sys x) y)
      else ((⟨y, t1, ic⟩ : ChatBoxState), sendMessageSys sys x)) = _
    rw [if_pos h2]
  have e3 : submitAt ⟨y, t1, true⟩ (sendMessageSys sys x) z t3
      = ((⟨"", t3, true⟩ : ChatBoxState),
         sendMessageSys (sendMessageSys sys x) z) := by
    show (if t3 - t1 < 2000 then
        ((⟨z, t1, true⟩ : ChatBoxState), sendMessageSys sys x)
      else if trimStr z ≠ "" then
        ((⟨"", t3, true⟩ : ChatBoxState), sendMessageSys (sendMessageSys sys x) z)
      else ((⟨z, t1, true⟩ : ChatBoxState), sendMessageSys sys x)) = _
    rw [if_neg (by omega), if_pos hz]
  have hSc : (sendMessageSys sys x).connected = true := by
    rw [sendMessageSys_connected]
    exact hconn
  refine ⟨?_, ?_, ?_, ?_, ?_, ?_, ?_⟩
  · rw [e1, sendMessageSys_accepted sys x hconn hx]
    rfl
  · rw [e1, sendMessageSys_accepted sys x hconn hx]
  · rw [e1, e2]
  · rw [e1, e2]
  · rw [e1, e2, e3,
      sendMessageSys_accepted (sendMessageSys sys x) z hSc hz]
    rfl
  · rw [e1, e2, e3,
      sendMessageSys_accepted (sendMessageSys sys x) z hSc hz]
  · intro hw
    show (if t - lst < 2000 then ((⟨w, lst, true⟩ : ChatBoxState), sys)
      else if trimStr w ≠ "" then
        ((⟨"", t, ic⟩ : ChatBoxState), sendMessageSys sys w)
      else ((⟨w, lst, ic⟩ : ChatBoxState), sys)).2 = sys
    split_ifs with hc ht
    · rfl
    · exact absurd hw ht
    · rfl

theorem C8_cooldown_witness :
    (submitAt
        (submitAt ⟨"", 0, false⟩ { SysState.init with connected := true }
          "hello" 2000).1
        (submitAt ⟨"", 0, false⟩ { SysState.init with connected := true }
          "hello" 2000).2 "again" 3000).2
      = (submitAt ⟨"", 0, false⟩ { SysState.init with connected := true }
          "hello" 2000).2 ∧
    (submitAt
        (submitAt ⟨"", 0, false⟩ { SysState.init with connected := true }
          "hello" 2000).1
        (submitAt ⟨"", 0, false⟩ { SysState.init with connected := true }
          "hello" 2000).2 "again" 3000).1.isCooldown = true :=
  ⟨(C8_cooldown ⟨"", 0, false⟩ { SysState.init with connected := true }
      "hello" "again" "third" " " 2000 3000 4000 0 rfl (by decide) (by decide)
      (by decide) (by decide) (by decide)).2.2.1,
   (C8_cooldown ⟨"", 0, false⟩ { SysState.init with connected := true }
      "hello" "again" "third" " " 2000 3000 4000 0 rfl (by decide) (by decide)
      (by decide) (by decide) (by decide)).2.2.2.1⟩

/- ### Transcript frame conditions -/

/-- C10: transcript mutation discipline — extending is a no-op on the
empty log and when the tail entry is not an assistant (`model`) entry;
in general `updateBotReply` leaves every entry before the tail and the
tail's `id`, `role` and `timestamp` untouched, extending only the
content of a `model` tail; and `addMessage` is pure append. -/
theorem C10_transcript_frame (msgs : List ChatMessage) (e : ChatMessage)
    (c : String) (m : ChatMessage) :
    updateBotReply [] c = [] ∧
    (e.role ≠ Role.model → updateBotReply (msgs ++ [e]) c = msgs ++ [e]) ∧
    updateBotReply (msgs ++ [e]) c
      = msgs ++ [⟨e.id, e.role,
          if e.role = Role.model then e.content ++ c else e.content,
          e.timestamp⟩] ∧
    addMessage msgs m = msgs ++ [m] := by
  refine ⟨rfl, ?_, ?_, rfl⟩
  · intro hrole
    unfold updateBotReply
    rw [List.getLast?_concat]
    show (if e.role = Role.model then
        (msgs ++ [e]).dropLast ++ [{ e with content := e.content ++ c }]
      else msgs ++ [e]) = _
    rw [if_neg hrole]
  · by_cases hrole : e.role = Role.model
    · rw [updateBotReply_concat msgs e hrole c, if_pos hrole]
    · unfold updateBotReply
      rw [List.getLast?_concat]
      show (if e.role = Role.model then
          (msgs ++ [e]).dropLast ++ [{ e with content := e.content ++ c }]
        else msgs ++ [e]) = _
      rw [if_neg hrole, if_neg hrole]

theorem C10_transcript_frame_witness :
    (⟨0, Role.user, "x", 0⟩ : ChatMessage).role ≠ Role.model ∧
    updateBotReply [⟨0, Role.user, "x", 0⟩] "c" = [⟨0, Role.user, "x", 0⟩] :=
  ⟨by decide,
   (C10_transcript_frame [] ⟨0, Role.user, "x", 0⟩ "c"
      ⟨1, Role.system, "y", 1⟩).2.1 (by decide)⟩
